import Mathlib

/-!
Verification development for the memory-safety profiler
(`malloc_intercept.c` + `hash_table.c`).

Shallow embedding conventions:
- Machine addresses (`void*`) are `Nat`, with `0` standing for `NULL`.
- `size_t` values are `Nat`; where the C code performs `size_t` arithmetic
  that can wrap (the `nmemb * size` product in `calloc`), the result is
  reduced modulo `2 ^ 64` (`SIZE_MOD`).
- C strings (shared-object paths) are `List Char`; `strstr` is modelled by
  an executable substring search `strstrCL`.
- `dladdr` composed with the `dli_fname` field is modelled by an oracle
  `resolve : Nat → Option (List Char)`: `none` covers both a failing
  `dladdr` call and a null `dli_fname`.
- The outcomes of the profiler's own bookkeeping allocations
  (`real_malloc_ptr(sizeof(allocation_info_t))` and the stack-copy
  allocation inside `hash_table_add`) are oracle Booleans
  `metaOk` / `traceOk`.
- The uthash registry (`g_allocations`) is a `List AllocationInfo` in
  insertion order (`HASH_ADD_PTR` appends to the application-order list,
  which is the order `HASH_ITER` iterates in).  Per uthash's documented
  semantics `HASH_ADD_PTR` performs no uniqueness check (only
  `HASH_REPLACE_PTR`, which this code does not use, replaces), so `add`
  inserts unconditionally.  Within a bucket uthash prepends, so with
  duplicate keys `HASH_FIND_PTR` returns the most recently added record:
  lookup is modelled as `find?` on the reversed list.
- Calls observable from outside the registry (real malloc/free calls,
  corruption-report output) are recorded in an explicit `Event` list.
- The `pthread` mutex makes each registry operation atomic; operations are
  therefore modelled as whole-state functions, with the frees that the code
  performs after `pthread_mutex_unlock` exposed separately
  (`postUnlockFrees`).
-/

namespace Profiler

/-- `SIZE_MAX + 1`: `size_t` arithmetic wraps modulo this. -/
def SIZE_MOD : Nat := 2 ^ 64

/-- One record of the allocation registry (`allocation_info_t`).
`stack_trace = none` models a null `stack_trace` pointer (the private copy
of the backtrace could not be allocated). -/
structure AllocationInfo where
  ptr : Nat
  size : Nat
  timestamp : Nat
  stack_trace : Option (List Nat)
  stack_depth : Nat
  is_suspicious : Bool
  deriving DecidableEq, Repr

/-- An object released via the real free by `hash_table_remove` after the
mutex is released: the record's private stack copy, or the record itself. -/
inductive FreedObj where
  | stackStorage (a : AllocationInfo)
  | record (a : AllocationInfo)
  deriving DecidableEq, Repr

/-- Result of `hash_table_remove`.  The C function's return type is `void`,
which the embedding keeps as the `returnValue : Unit` field; `reg` is the
registry after the critical section and `postUnlockFrees` lists, in order,
the real-free calls issued after `pthread_mutex_unlock`. -/
structure RemoveResult where
  reg : List AllocationInfo
  postUnlockFrees : List FreedObj
  returnValue : Unit
  deriving DecidableEq, Repr

/-- `HASH_FIND_PTR` on the registry: the most recently added record whose
key equals `p` (uthash prepends within a bucket, so among duplicates the
newest is found first). -/
def findAlloc (reg : List AllocationInfo) (p : Nat) : Option AllocationInfo :=
  reg.reverse.find? (fun a => a.ptr == p)

/-- The prefix test underlying the `strstr` model: does `hay` start with
`needle`? -/
def hasPrefixCL : List Char → List Char → Bool
  | [], _ => true
  | _ :: _, [] => false
  | c :: cs, d :: ds => c == d && hasPrefixCL cs ds

/-- Model of libc `strstr hay needle ≠ NULL`: `needle` occurs contiguously
inside `hay`. -/
def strstrCL : List Char → List Char → Bool
  | [], needle => hasPrefixCL needle []
  | c :: rest, needle => hasPrefixCL needle (c :: rest) || strstrCL rest needle

/-- The pattern `"libc.so"` that `is_likely_libc_allocation` searches for in
the owning shared object's path. -/
def libcPat : List Char := ['l', 'i', 'b', 'c', '.', 's', 'o']

/-- `hash_table_add` (hash_table.c:43-79).  Oracle arguments:
`realSet` models `real_malloc_ptr != NULL`, `metaOk` the success of the
metadata allocation, `traceOk` the success of the stack-copy allocation.
On stack-copy failure the record is still inserted, with a null
`stack_trace` and `stack_depth = 0`.  `HASH_ADD_PTR` appends to the
application-order list without any uniqueness check. -/
def hash_table_add (reg : List AllocationInfo) (p : Nat) (size : Nat) (ts : Nat)
    (trace : List Nat) (depth : Nat) (is_suspicious : Bool)
    (realSet metaOk traceOk : Bool) : List AllocationInfo :=
  if p = 0 then reg
  else if realSet = false then reg
  else if metaOk = false then reg
  else
    reg ++ [{ ptr := p, size := size, timestamp := ts,
              stack_trace := if traceOk then some (trace.take depth) else none,
              stack_depth := if traceOk then depth else 0,
              is_suspicious := is_suspicious }]

/-- `hash_table_remove` (hash_table.c:89-120): under the mutex, find and
unlink the record for `p` (`HASH_DEL` removes exactly the record that
`HASH_FIND_PTR` returned); after the unlock, really free the record's stack
copy (when non-null) and then the record.  The C return type is `void`. -/
def hash_table_remove (reg : List AllocationInfo) (p : Nat) : RemoveResult :=
  if p = 0 then { reg := reg, postUnlockFrees := [], returnValue := () }
  else
    match findAlloc reg p with
    | none => { reg := reg, postUnlockFrees := [], returnValue := () }
    | some found =>
        { reg := (reg.reverse.eraseP (fun a => a.ptr == p)).reverse,
          postUnlockFrees :=
            (match found.stack_trace with
             | some _ => [FreedObj.stackStorage found]
             | none => []) ++ [FreedObj.record found],
          returnValue := () }

/-- `hash_table_find` (hash_table.c:130-145): membership test under the
mutex; `1` iff a record for `p` exists. -/
def hash_table_find (reg : List AllocationInfo) (p : Nat) : Bool :=
  if p = 0 then false else (findAlloc reg p).isSome

/-- One line of the shutdown leak report (`hash_table_report_leaks`). -/
inductive ReportLine where
  | leaksHeader
  | leak (p size : Nat)
  | frames (shown : List Nat)
  | blank
  | summaryHeader
  | realLeaks (n bytes : Nat)
  | libcInfra (m bytes : Nat)
  | footer
  deriving DecidableEq, Repr

/-- Accumulator of the `HASH_ITER` loop in `hash_table_report_leaks`:
the lines emitted so far and the four counters.  Byte totals are `size_t`
sums and wrap modulo `SIZE_MOD`; the `int` counters are kept as `Nat`
(the registry of a real process is far below `INT_MAX` records). -/
structure ReportAcc where
  lines : List ReportLine
  confirmed_count : Nat
  suspicious_count : Nat
  confirmed_bytes : Nat
  suspicious_bytes : Nat
  deriving DecidableEq, Repr

/-- Body of the `HASH_ITER` loop of `hash_table_report_leaks`
(hash_table.c:164-184): suspicious records are only counted; other records
are itemized (header before the first one, then the `[LEAK]` line, the
top-7 frame lines when enabled and a trace exists, and a blank line). -/
def reportStep (show_st : Bool) (acc : ReportAcc) (a : AllocationInfo) : ReportAcc :=
  if a.is_suspicious then
    { acc with suspicious_count := acc.suspicious_count + 1,
               suspicious_bytes := (acc.suspicious_bytes + a.size) % SIZE_MOD }
  else
    { acc with
      lines := acc.lines
        ++ (if acc.confirmed_count = 0 then [ReportLine.leaksHeader] else [])
        ++ [ReportLine.leak a.ptr a.size]
        ++ (if show_st ∧ a.stack_trace.isSome ∧ 0 < a.stack_depth then
              [ReportLine.frames ((a.stack_trace.getD []).take (min a.stack_depth 7))]
            else [])
        ++ [ReportLine.blank],
      confirmed_count := acc.confirmed_count + 1,
      confirmed_bytes := (acc.confirmed_bytes + a.size) % SIZE_MOD }

/-- `hash_table_report_leaks` (hash_table.c:156-196): the loop over the
registry in insertion order, then the summary block, printed only when some
record remains; the `Libc infrastructure` line only when
`suspicious_count > 0`. -/
def hash_table_report_leaks (show_st : Bool) (reg : List AllocationInfo) :
    List ReportLine :=
  let acc := reg.foldl (reportStep show_st)
    { lines := [], confirmed_count := 0, suspicious_count := 0,
      confirmed_bytes := 0, suspicious_bytes := 0 }
  acc.lines
    ++ (if 0 < acc.confirmed_count ∨ 0 < acc.suspicious_count then
          [ReportLine.summaryHeader,
           ReportLine.realLeaks acc.confirmed_count acc.confirmed_bytes]
          ++ (if 0 < acc.suspicious_count then
                [ReportLine.libcInfra acc.suspicious_count acc.suspicious_bytes]
              else [])
          ++ [ReportLine.footer]
        else [])

/-- `is_likely_libc_allocation` (malloc_intercept, Makefile lines 185-204).
`depth` is the frame count returned by `backtrace`; the `!stack_trace`
null test of the C code cannot fire in the embedding (the caller always
passes a valid array).  `resolve` models `dladdr` + `dli_fname`:
`none` when `dladdr` fails or `dli_fname` is null.  Returns `true` (tag
infrastructure) exactly when frame 1 resolves to a shared object whose
path contains `"libc.so"`. -/
def is_likely_libc_allocation (trace : List Nat) (depth : Nat)
    (resolve : Nat → Option (List Char)) : Bool :=
  if depth < 2 then false
  else
    match trace.get? 1 with
    | none => false
    | some f =>
        match resolve f with
        | none => false
        | some fname => strstrCL fname libcPat

/-- The profiler's global mutable state (malloc_intercept, Makefile lines
243-250).  `in_profiler` is the single process-wide `static int` guard that
the source declares — not a thread-local flag. -/
structure ProfilerState where
  initialized : Bool
  shutting_down : Bool
  in_profiler : Bool
  show_stack_traces : Bool
  allocations : List AllocationInfo
  deriving DecidableEq, Repr

/-- Externally observable actions of the interception layer. -/
inductive Event where
  | realMalloc (size p : Nat)
  | realCalloc (n size p : Nat)
  | realRealloc (p size newp : Nat)
  | realFree (p : Nat)
  | metaFree (o : FreedObj)
  | corruptionLine (p : Nat)
  | corruptionTrace
  deriving DecidableEq, Repr

/-- `profiler_init` (Makefile lines 258-287): idempotent; reads the
stack-trace toggle from the environment (`envStackOff` models
`PROFILER_STACK_TRACES == "0"`), binds the real allocator (assumed to
succeed — on failure the process exits) and resets the registry. -/
def profiler_init (st : ProfilerState) (envStackOff : Bool) : ProfilerState :=
  if st.initialized then st
  else { st with initialized := true,
                 show_stack_traces := !envStackOff,
                 allocations := [] }

/-- Intercepted `malloc` (Makefile lines 308-336).  `p` is the address the
real malloc returns, `trace` the captured backtrace (its length is the
`depth` that `backtrace` reports), `ts` the `time(NULL)` value, and
`metaOk` / `traceOk` the outcomes of the two bookkeeping allocations.
After a successful `profiler_init`, `real_malloc_ptr` is non-null, so the
`realSet` argument of `hash_table_add` is `true`.  Returns the new state,
the events, and the value returned to the caller. -/
def malloc (envStackOff : Bool) (st : ProfilerState) (size : Nat) (p : Nat)
    (trace : List Nat) (resolve : Nat → Option (List Char))
    (metaOk traceOk : Bool) (ts : Nat) :
    ProfilerState × List Event × Nat :=
  let st := profiler_init st envStackOff
  if st.in_profiler = false ∧ p ≠ 0 then
    let susp := is_likely_libc_allocation trace trace.length resolve
    let reg := hash_table_add st.allocations p size ts trace trace.length susp
      true metaOk traceOk
    ({ st with allocations := reg }, [Event.realMalloc size p], p)
  else (st, [Event.realMalloc size p], p)

/-- Intercepted `free` (Makefile lines 346-385): skip null; during shutdown
delegate straight to the real free; with the guard set likewise; otherwise,
under the guard, either report corruption (absent address: one corruption
line, optional backtrace, no real free, registry untouched) or remove the
record and then really free the address. -/
def free (envStackOff : Bool) (st : ProfilerState) (p : Nat) :
    ProfilerState × List Event :=
  let st := profiler_init st envStackOff
  if p = 0 then (st, [])
  else if st.shutting_down then (st, [Event.realFree p])
  else if st.in_profiler then (st, [Event.realFree p])
  else if hash_table_find st.allocations p = false then
    (st, [Event.corruptionLine p]
         ++ (if st.show_stack_traces then [Event.corruptionTrace] else []))
  else
    let r := hash_table_remove st.allocations p
    ({ st with allocations := r.reg },
     r.postUnlockFrees.map Event.metaFree ++ [Event.realFree p])

/-- Intercepted `calloc` (Makefile lines 392-415): identical to `malloc`
except that the real calloc is called and the tracked size is the `size_t`
product `nmemb * size`, which wraps modulo `SIZE_MOD`. -/
def calloc (envStackOff : Bool) (st : ProfilerState) (nmemb size : Nat) (p : Nat)
    (trace : List Nat) (resolve : Nat → Option (List Char))
    (metaOk traceOk : Bool) (ts : Nat) :
    ProfilerState × List Event × Nat :=
  let st := profiler_init st envStackOff
  if st.in_profiler = false ∧ p ≠ 0 then
    let susp := is_likely_libc_allocation trace trace.length resolve
    let reg := hash_table_add st.allocations p (nmemb * size % SIZE_MOD) ts trace
      trace.length susp true metaOk traceOk
    ({ st with allocations := reg }, [Event.realCalloc nmemb size p], p)
  else (st, [Event.realCalloc nmemb size p], p)

/-- Intercepted `realloc` (Makefile lines 424-461): null pointer forwards
to `malloc`; size 0 forwards to `free` and returns null; otherwise the real
realloc runs (`newp` is its result) and, under the guard, the old record is
removed and a fresh one inserted for a non-null `newp`. -/
def realloc (envStackOff : Bool) (st : ProfilerState) (p : Nat) (size : Nat)
    (newp : Nat) (trace : List Nat) (resolve : Nat → Option (List Char))
    (metaOk traceOk : Bool) (ts : Nat) :
    ProfilerState × List Event × Nat :=
  let st := profiler_init st envStackOff
  if p = 0 then malloc envStackOff st size newp trace resolve metaOk traceOk ts
  else if size = 0 then
    let r := free envStackOff st p
    (r.1, r.2, 0)
  else if st.in_profiler = false then
    let r := hash_table_remove st.allocations p
    let reg :=
      if newp ≠ 0 then
        hash_table_add r.reg newp size ts trace trace.length
          (is_likely_libc_allocation trace trace.length resolve) true metaOk traceOk
      else r.reg
    ({ st with allocations := reg },
     [Event.realRealloc p size newp] ++ r.postUnlockFrees.map Event.metaFree,
     newp)
  else (st, [Event.realRealloc p size newp], newp)

/-! Helper lemmas shared by the claim theorems. -/

theorem hasPrefixCL_iff : ∀ needle hay : List Char,
    hasPrefixCL needle hay = true ↔ ∃ rest, hay = needle ++ rest
  | [], hay => by simp [hasPrefixCL]
  | c :: cs, [] => by simp [hasPrefixCL]
  | c :: cs, d :: ds => by
      simp only [hasPrefixCL, Bool.and_eq_true, beq_iff_eq, List.cons_append,
        List.cons.injEq]
      constructor
      · rintro ⟨rfl, h⟩
        obtain ⟨rest, rfl⟩ := (hasPrefixCL_iff cs ds).mp h
        exact ⟨rest, rfl, rfl⟩
      · rintro ⟨rest, h1, h2⟩
        exact ⟨h1.symm, (hasPrefixCL_iff cs ds).mpr ⟨rest, h2⟩⟩

theorem strstrCL_iff : ∀ hay needle : List Char,
    strstrCL hay needle = true ↔ ∃ pre post, hay = pre ++ needle ++ post
  | [], needle => by
      simp only [strstrCL, hasPrefixCL_iff]
      constructor
      · rintro ⟨rest, h⟩
        rcases List.append_eq_nil.mp h.symm with ⟨h1, h2⟩
        exact ⟨[], [], by simp [h1]⟩
      · rintro ⟨pre, post, h⟩
        rcases List.append_eq_nil.mp h.symm with ⟨h12, hpost⟩
        rcases List.append_eq_nil.mp h12 with ⟨hpre, hneedle⟩
        exact ⟨[], by simp [hneedle]⟩
  | c :: rest, needle => by
      simp only [strstrCL, Bool.or_eq_true, hasPrefixCL_iff, strstrCL_iff rest needle]
      constructor
      · rintro (⟨r, hr⟩ | ⟨pre, post, h⟩)
        · exact ⟨[], r, by simpa using hr⟩
        · exact ⟨c :: pre, post, by simp [h]⟩
      · rintro ⟨pre, post, h⟩
        cases pre with
        | nil => exact Or.inl ⟨post, by simpa using h⟩
        | cons x xs =>
            refine Or.inr ⟨xs, post, ?_⟩
            simp only [List.cons_append] at h
            injection h with ha hb

theorem countP_eraseP_succ {α : Type} (f : α → Bool) :
    ∀ l : List α, (∃ x ∈ l, f x = true) →
      (l.eraseP f).countP f + 1 = l.countP f
  | [], h => by simp at h
  | x :: xs, h => by
      by_cases hx : f x = true
      · rw [List.eraseP_cons_of_pos hx, List.countP_cons_of_pos _ _ hx]
      · have hx' : ¬ f x := hx
        rw [List.eraseP_cons_of_neg hx', List.countP_cons_of_neg _ _ hx',
          List.countP_cons_of_neg _ _ hx']
        apply countP_eraseP_succ f xs
        rcases h with ⟨y, hy, hfy⟩
        rcases List.mem_cons.mp hy with rfl | hy'
        · exact absurd hfy hx
        · exact ⟨y, hy', hfy⟩

theorem countP_eraseP_other {α : Type} (f g : α → Bool)
    (hfg : ∀ x, f x = true → g x = false) :
    ∀ l : List α, (l.eraseP f).countP g = l.countP g
  | [] => rfl
  | x :: xs => by
      by_cases hx : f x = true
      · rw [List.eraseP_cons_of_pos hx, List.countP_cons_of_neg]
        simp [hfg x hx]
      · have hx' : ¬ f x := hx
        rw [List.eraseP_cons_of_neg hx', List.countP_cons, List.countP_cons,
          countP_eraseP_other f g hfg xs]

theorem findAlloc_append_last (reg : List AllocationInfo) (a : AllocationInfo)
    (p : Nat) (hp : a.ptr = p) : findAlloc (reg ++ [a]) p = some a := by
  simp [findAlloc, List.find?_cons, hp]

theorem profiler_init_of_initialized (st : ProfilerState) (e : Bool)
    (h : st.initialized = true) : profiler_init st e = st := by
  simp [profiler_init, h]

theorem profiler_init_initialized (st : ProfilerState) (e : Bool) :
    (profiler_init st e).initialized = true := by
  by_cases h : st.initialized = true <;> simp [profiler_init, h]

theorem profiler_init_idem (st : ProfilerState) (e : Bool) :
    profiler_init (profiler_init st e) e = profiler_init st e :=
  profiler_init_of_initialized _ _ (profiler_init_initialized st e)

theorem report_foldl_susp (s : Bool) :
    ∀ (reg : List AllocationInfo) (acc : ReportAcc),
      (List.foldl (reportStep s) acc reg).suspicious_count
        = acc.suspicious_count + reg.countP (fun a => a.is_suspicious)
  | [], acc => by simp
  | a :: reg, acc => by
      rw [List.foldl_cons, report_foldl_susp s reg _, List.countP_cons]
      by_cases h : a.is_suspicious = true <;> simp [reportStep, h] <;> omega

theorem report_foldl_infra_mem (s : Bool) :
    ∀ (reg : List AllocationInfo) (acc : ReportAcc) (m b : Nat),
      ReportLine.libcInfra m b ∈ (List.foldl (reportStep s) acc reg).lines →
      ReportLine.libcInfra m b ∈ acc.lines
  | [], acc, m, b => by simp
  | a :: reg, acc, m, b => by
      intro h
      rw [List.foldl_cons] at h
      have h2 := report_foldl_infra_mem s reg _ m b h
      by_cases hs : a.is_suspicious = true
      · simpa [reportStep, hs] using h2
      · simp only [reportStep, hs, if_false, Bool.false_eq_true] at h2
        simp only [List.mem_append] at h2
        rcases h2 with ((((h2 | h2) | h2) | h2) | h2)
        · exact h2
        · split at h2 <;> simp at h2
        · simp at h2
        · split at h2 <;> simp at h2
        · simp at h2

theorem report_foldl_leak_mem (s : Bool) :
    ∀ (reg : List AllocationInfo) (acc : ReportAcc) (p sz : Nat),
      ReportLine.leak p sz ∈ (List.foldl (reportStep s) acc reg).lines →
      ReportLine.leak p sz ∈ acc.lines
        ∨ ∃ a, a ∈ reg ∧ a.is_suspicious = false ∧ a.ptr = p ∧ a.size = sz
  | [], acc, p, sz => by simp
  | a :: reg, acc, p, sz => by
      intro h
      rw [List.foldl_cons] at h
      rcases report_foldl_leak_mem s reg _ p sz h with h2 | ⟨x, hx, hxs, hxp, hxz⟩
      · by_cases hs : a.is_suspicious = true
        · simp only [reportStep, hs, if_true] at h2
          exact Or.inl h2
        · simp only [reportStep, hs, if_false, Bool.false_eq_true] at h2
          simp only [List.mem_append] at h2
          rcases h2 with ((((h2 | h2) | h2) | h2) | h2)
          · exact Or.inl h2
          · split at h2 <;> simp at h2
          · simp only [List.mem_singleton] at h2
            injection h2 with h3 h4
            exact Or.inr ⟨a, List.mem_cons_self a reg, Bool.not_eq_true _ ▸ hs,
              h3.symm, h4.symm⟩
          · split at h2 <;> simp at h2
          · simp at h2
      · exact Or.inr ⟨x, List.mem_cons_of_mem a hx, hxs, hxp, hxz⟩

/-! Absorption of the idempotent initialization, used to compare entry
points that delegate to one another. -/

theorem free_init_absorb (e : Bool) (st : ProfilerState) (p : Nat) :
    free e (profiler_init st e) p = free e st p := by
  unfold free
  rw [profiler_init_idem]

theorem malloc_init_absorb (e : Bool) (st : ProfilerState) (size p : Nat)
    (trace : List Nat) (resolve : Nat → Option (List Char))
    (metaOk traceOk : Bool) (ts : Nat) :
    malloc e (profiler_init st e) size p trace resolve metaOk traceOk ts
      = malloc e st size p trace resolve metaOk traceOk ts := by
  unfold malloc
  rw [profiler_init_idem]

/-! The claim theorems. -/

/-- C1: a call to `free` with a non-null address that is absent from the
registry, made before shutdown with the reentrancy guard clear, emits
exactly one `[CORRUPTION] Double-Free or Invalid-Free at <address>` line
(followed only by the optional backtrace dump), performs no real free at
all — in particular not for that address — and leaves the registry (indeed
the whole profiler state) unchanged. -/
theorem free_absent_reports_one_corruption (e : Bool) (st : ProfilerState)
    (p : Nat) (hinit : st.initialized = true) (hg : st.in_profiler = false)
    (hsd : st.shutting_down = false) (hp : p ≠ 0)
    (habs : hash_table_find st.allocations p = false) :
    (free e st p).2
      = Event.corruptionLine p
          :: (if st.show_stack_traces then [Event.corruptionTrace] else [])
    ∧ ((free e st p).2.countP fun ev => ev == Event.corruptionLine p) = 1
    ∧ (∀ q, Event.realFree q ∉ (free e st p).2)
    ∧ (∀ o, Event.metaFree o ∉ (free e st p).2)
    ∧ (free e st p).1 = st := by
  have hi := profiler_init_of_initialized st e hinit
  refine ⟨?_, ?_, ?_, ?_, ?_⟩ <;>
    by_cases hst : st.show_stack_traces = true <;>
      simp [free, hi, hp, hsd, hg, habs, hst]

/-- Witness for C1 at a concrete state and address. -/
theorem free_absent_reports_one_corruption_inst :
    (free false
        { initialized := true, shutting_down := false, in_profiler := false,
          show_stack_traces := true, allocations := [] } 5).1
      = { initialized := true, shutting_down := false, in_profiler := false,
          show_stack_traces := true, allocations := [] } :=
  (free_absent_reports_one_corruption false
    { initialized := true, shutting_down := false, in_profiler := false,
      show_stack_traces := true, allocations := [] } 5 rfl rfl rfl
    (by decide) (by decide)).2.2.2.2

/-- C2 counterexample: adding an address that is already present stores a
second record instead of replacing the first (`HASH_ADD_PTR` performs no
uniqueness check), so after two adds of address 100 the registry holds two
records for it — the address is not present at most once. -/
theorem double_add_stores_two_records :
    ((hash_table_add (hash_table_add [] 100 8 0 [] 0 false true true true)
        100 16 1 [] 0 false true true true).countP
      (fun a => a.ptr == 100)) = 2 := by decide

/-- C2 amended: `add` of a non-null address (with the metadata allocation
succeeding and the real allocator bound) always appends a fresh record,
even when a record for the address is already present; the number of
records for that address grows by one rather than the existing record
being replaced. -/
theorem add_appends_even_if_present (reg : List AllocationInfo)
    (p size ts : Nat) (trace : List Nat) (depth : Nat) (susp traceOk : Bool)
    (hp : p ≠ 0) :
    (hash_table_add reg p size ts trace depth susp true true traceOk).countP
        (fun a => a.ptr == p)
      = reg.countP (fun a => a.ptr == p) + 1 := by
  simp [hash_table_add, hp]

/-- Witness for the amended C2 on a registry already holding address 7. -/
theorem add_appends_even_if_present_inst :
    (hash_table_add
        [{ ptr := 7, size := 1, timestamp := 0, stack_trace := none,
           stack_depth := 0, is_suspicious := false }]
        7 8 0 [] 0 false true true true).countP (fun a => a.ptr == 7)
      = ([{ ptr := 7, size := 1, timestamp := 0, stack_trace := none,
            stack_depth := 0, is_suspicious := false }] :
          List AllocationInfo).countP (fun a => a.ptr == 7) + 1 :=
  add_appends_even_if_present _ 7 8 0 [] 0 false true (by decide)

/-- C9: a `free` of a non-null address before shutdown while the reentrancy
guard is already set delegates directly to the real free: the registry is
not consulted or changed, and no corruption line is emitted even when the
address is absent. -/
theorem free_guard_set_delegates (e : Bool) (st : ProfilerState) (p : Nat)
    (hinit : st.initialized = true) (hg : st.in_profiler = true)
    (hsd : st.shutting_down = false) (hp : p ≠ 0) :
    free e st p = (st, [Event.realFree p]) := by
  simp [free, profiler_init_of_initialized st e hinit, hp, hsd, hg]

/-- Witness for C9: the guard is set and address 5 is absent, yet the call
just forwards to the real free and leaves the (empty) registry alone. -/
theorem free_guard_set_delegates_inst :
    free false
        { initialized := true, shutting_down := false, in_profiler := true,
          show_stack_traces := true, allocations := [] } 5
      = ({ initialized := true, shutting_down := false, in_profiler := true,
           show_stack_traces := true, allocations := [] },
         [Event.realFree 5]) :=
  free_guard_set_delegates false _ 5 rfl rfl rfl (by decide)

/-- C10: when the metadata record is allocated but the private copy of the
stack trace cannot be (`traceOk = false`), the record is still inserted,
with a null stack pointer and `stack_depth = 0`; the address remains
tracked (`contains` finds it, so it is reportable as a leak). -/
theorem add_without_stack_copy_still_tracked (reg : List AllocationInfo)
    (p size ts : Nat) (trace : List Nat) (depth : Nat) (susp : Bool)
    (hp : p ≠ 0) :
    hash_table_add reg p size ts trace depth susp true true false
      = reg ++ [{ ptr := p, size := size, timestamp := ts, stack_trace := none,
                  stack_depth := 0, is_suspicious := susp }]
    ∧ hash_table_find
        (hash_table_add reg p size ts trace depth susp true true false) p
      = true := by
  have hadd : hash_table_add reg p size ts trace depth susp true true false
      = reg ++ [{ ptr := p, size := size, timestamp := ts, stack_trace := none,
                  stack_depth := 0, is_suspicious := susp }] := by
    simp [hash_table_add, hp]
  refine ⟨hadd, ?_⟩
  rw [hadd]
  simp [hash_table_find, hp, findAlloc_append_last _ _ _ rfl]

/-- Witness for C10 at a concrete registry. -/
theorem add_without_stack_copy_still_tracked_inst :
    hash_table_find (hash_table_add [] 9 32 3 [1, 2] 2 false true true false) 9
      = true :=
  (add_without_stack_copy_still_tracked [] 9 32 3 [1, 2] 2 false (by decide)).2

/-- C5: the provenance classifier tags an allocation *infrastructure*
(`true`) exactly when at least 2 frames were captured and frame 1 — the
immediate caller of the allocator — resolves to a shared object whose path
contains the substring `libc.so`; with fewer than 2 frames, or when frame 1
does not resolve, or when the path lacks the substring, the tag is *user*
(`false`). -/
theorem classifier_infra_iff_frame1_libc (trace : List Nat) (depth : Nat)
    (resolve : Nat → Option (List Char)) :
    is_likely_libc_allocation trace depth resolve = true
      ↔ 2 ≤ depth ∧ ∃ f fname, trace.get? 1 = some f ∧ resolve f = some fname ∧
          ∃ pre post, fname = pre ++ libcPat ++ post := by
  unfold is_likely_libc_allocation
  by_cases hd : depth < 2
  · have h2 : ¬ 2 ≤ depth := by omega
    simp [hd, h2]
  · have h2 : 2 ≤ depth := by omega
    cases hg : trace.get? 1 with
    | none => simp [hd, hg]
    | some f =>
        cases hr : resolve f with
        | none => simp [hd, hg, hr]
        | some fname => simp [hd, hg, hr, h2, strstrCL_iff]

/-- C8: a tracked `calloc` produces exactly the profiler state that a
`malloc` of the wrapped `size_t` product `nmemb * size % 2 ^ 64` would
produce, and the record it inserts carries that product as its size. -/
theorem calloc_tracks_wrapped_product (e : Bool) (st : ProfilerState)
    (nmemb size p : Nat) (trace : List Nat)
    (resolve : Nat → Option (List Char)) (metaOk traceOk : Bool) (ts : Nat) :
    (calloc e st nmemb size p trace resolve metaOk traceOk ts).1
      = (malloc e st (nmemb * size % SIZE_MOD) p trace resolve metaOk
          traceOk ts).1
    ∧ (st.initialized = true → st.in_profiler = false → p ≠ 0 →
        metaOk = true →
        ∃ a, findAlloc
            ((calloc e st nmemb size p trace resolve metaOk traceOk
              ts).1.allocations) p = some a
          ∧ a.size = nmemb * size % SIZE_MOD) := by
  constructor
  · by_cases hc : (profiler_init st e).in_profiler = false ∧ p ≠ 0
    · simp [calloc, malloc, hc]
    · simp [calloc, malloc, hc]
  · intro hinit hg hp hm
    have hi := profiler_init_of_initialized st e hinit
    have hst : (calloc e st nmemb size p trace resolve metaOk traceOk
          ts).1.allocations
        = st.allocations ++
          [{ ptr := p, size := nmemb * size % SIZE_MOD, timestamp := ts,
             stack_trace :=
               if traceOk then some (trace.take trace.length) else none,
             stack_depth := if traceOk then trace.length else 0,
             is_suspicious :=
               is_likely_libc_allocation trace trace.length resolve }] := by
      simp [calloc, hi, hg, hp, hash_table_add, hm]
    rw [hst, findAlloc_append_last _ _ _ rfl]
    exact ⟨_, rfl, rfl⟩

/-- Witness for C8: a tracked `calloc 3 6` records size 18. -/
theorem calloc_tracks_wrapped_product_inst :
    ∃ a, findAlloc
        ((calloc false
          { initialized := true, shutting_down := false, in_profiler := false,
            show_stack_traces := true, allocations := [] }
          3 6 4096 [1, 2] (fun _ => none) true true 0).1.allocations) 4096
      = some a ∧ a.size = 3 * 6 % SIZE_MOD :=
  (calloc_tracks_wrapped_product false
    { initialized := true, shutting_down := false, in_profiler := false,
      show_stack_traces := true, allocations := [] }
    3 6 4096 [1, 2] (fun _ => none) true true 0).2 rfl rfl (by decide) rfl

/-- C4: `realloc p 0` with non-null `p` reaches exactly the profiler state
that `free p` reaches and returns null, and `realloc NULL n` is the very
same computation as `malloc n` (state, events and returned address). -/
theorem realloc_zero_and_null_cases (e : Bool) (st : ProfilerState)
    (p n newp : Nat) (trace : List Nat) (resolve : Nat → Option (List Char))
    (metaOk traceOk : Bool) (ts : Nat) :
    (p ≠ 0 →
      (realloc e st p 0 newp trace resolve metaOk traceOk ts).1
          = (free e st p).1
      ∧ (realloc e st p 0 newp trace resolve metaOk traceOk ts).2.2 = 0)
    ∧ realloc e st 0 n newp trace resolve metaOk traceOk ts
        = malloc e st n newp trace resolve metaOk traceOk ts := by
  constructor
  · intro hp
    constructor
    · simp [realloc, hp, free_init_absorb]
    · simp [realloc, hp]
  · simp [realloc, malloc_init_absorb]

/-- Witness for C4 with `p = 5`. -/
theorem realloc_zero_and_null_cases_inst :
    (realloc false
        { initialized := true, shutting_down := false, in_profiler := false,
          show_stack_traces := true, allocations := [] }
        5 0 0 [] (fun _ => none) true true 0).2.2 = 0 :=
  ((realloc_zero_and_null_cases false
    { initialized := true, shutting_down := false, in_profiler := false,
      show_stack_traces := true, allocations := [] }
    5 0 0 [] (fun _ => none) true true 0).1 (by decide)).2

/-- C3 counterexample: `hash_table_remove` has C return type `void`
(`returnValue : Unit` in the embedding), so its return value is identical
for a call that found and removed address 100 and for a call on an empty
registry where 100 was absent — the operation does not return whether the
address was present, even though presence differs between the two calls. -/
theorem remove_return_carries_no_presence :
    hash_table_find
        [{ ptr := 100, size := 8, timestamp := 0, stack_trace := some [1, 2],
           stack_depth := 2, is_suspicious := false }] 100 = true
    ∧ hash_table_find [] 100 = false
    ∧ (hash_table_remove
        [{ ptr := 100, size := 8, timestamp := 0, stack_trace := some [1, 2],
           stack_depth := 2, is_suspicious := false }] 100).returnValue
      = (hash_table_remove [] 100).returnValue := by decide

/-- C3 amended: `remove` of a non-null address that is present performs the
atomic lookup-and-remove — the found record (the most recently added one
for that address) leaves the registry and every other record survives —
and after the critical section the record's stack storage (when its stack
pointer is non-null) and then the record itself are released via the real
free; but no presence indicator is returned (the C return type is void). -/
theorem remove_erases_found_and_frees_after_unlock
    (reg : List AllocationInfo) (p : Nat) (a : AllocationInfo) (hp : p ≠ 0)
    (hfind : findAlloc reg p = some a) :
    (hash_table_remove reg p).postUnlockFrees
      = (if (a.stack_trace).isSome then [FreedObj.stackStorage a] else [])
        ++ [FreedObj.record a]
    ∧ ((hash_table_remove reg p).reg).countP (fun x => x.ptr == p) + 1
      = reg.countP (fun x => x.ptr == p)
    ∧ (∀ q, q ≠ p →
        ((hash_table_remove reg p).reg).countP (fun x => x.ptr == q)
          = reg.countP (fun x => x.ptr == q)) := by
  have hfind2 : reg.reverse.find? (fun x => x.ptr == p) = some a := hfind
  have hmem : a ∈ reg.reverse := List.mem_of_find?_eq_some hfind2
  have hpa := List.find?_some hfind2
  have hreg : (hash_table_remove reg p).reg
      = (reg.reverse.eraseP (fun x => x.ptr == p)).reverse := by
    simp [hash_table_remove, hp, hfind]
  refine ⟨?_, ?_, ?_⟩
  · cases hstk : a.stack_trace <;> simp [hash_table_remove, hp, hfind, hstk]
  · rw [hreg, List.countP_reverse]
    rw [countP_eraseP_succ (fun x => x.ptr == p) reg.reverse ⟨a, hmem, hpa⟩]
    exact List.countP_reverse _ _
  · intro q hq
    rw [hreg, List.countP_reverse]
    rw [countP_eraseP_other (fun x => x.ptr == p) (fun x => x.ptr == q)
      (fun x hx => ?_) reg.reverse]
    · exact List.countP_reverse _ _
    · have : x.ptr = p := by simpa using hx
      simp [this]
      exact fun h => hq h.symm

/-- Witness for the amended C3: removing the present address 100 defers
exactly the stack-storage free and the record free to after the unlock. -/
theorem remove_erases_found_and_frees_after_unlock_inst :
    ((hash_table_remove
        [{ ptr := 100, size := 8, timestamp := 0, stack_trace := some [1, 2],
           stack_depth := 2, is_suspicious := false }] 100).reg).countP
        (fun x => x.ptr == 100) + 1
      = ([{ ptr := 100, size := 8, timestamp := 0, stack_trace := some [1, 2],
            stack_depth := 2, is_suspicious := false }] :
          List AllocationInfo).countP (fun x => x.ptr == 100) :=
  (remove_erases_found_and_frees_after_unlock _ 100
    { ptr := 100, size := 8, timestamp := 0, stack_trace := some [1, 2],
      stack_depth := 2, is_suspicious := false }
    (by decide) (by decide)).2.1

/-- C6: the reentrancy guard is the single process-wide
`static int in_profiler` shared by every thread, not a thread-local flag.
This theorem evaluates the code at the failing interleaving: thread A is
inside its tracking window (it set the shared guard), thread B's `malloc`
of 64 bytes returns the fresh address 4096 — and B's unrelated user
allocation is not tracked (the registry stays empty), whereas the identical
call with the guard clear does track it.  A thread-local guard, as the
claim and the spec require, would have tracked B's allocation in both
runs. -/
theorem shared_guard_suppresses_other_thread_tracking :
    (malloc false
        { initialized := true, shutting_down := false, in_profiler := true,
          show_stack_traces := true, allocations := [] }
        64 4096 [1, 2] (fun _ => none) true true 7).1.allocations = []
    ∧ (malloc false
        { initialized := true, shutting_down := false, in_profiler := false,
          show_stack_traces := true, allocations := [] }
        64 4096 [1, 2] (fun _ => none) true true 7).1.allocations ≠ [] := by
  constructor
  · decide
  · decide

/-- C7: in the shutdown leak report, the `Libc infrastructure` summary
line appears if and only if the number `m` of records tagged
infrastructure is positive; when it appears it carries exactly that count;
and infrastructure records are never itemized — every `[LEAK]` line of the
report comes from a record tagged user. -/
theorem report_infra_counted_not_itemized (s : Bool)
    (reg : List AllocationInfo) :
    ((∃ m b, ReportLine.libcInfra m b ∈ hash_table_report_leaks s reg)
       ↔ 0 < reg.countP (fun a => a.is_suspicious))
    ∧ (∀ m b, ReportLine.libcInfra m b ∈ hash_table_report_leaks s reg →
        m = reg.countP (fun a => a.is_suspicious))
    ∧ (∀ p sz, ReportLine.leak p sz ∈ hash_table_report_leaks s reg →
        ∃ a, a ∈ reg ∧ a.is_suspicious = false ∧ a.ptr = p ∧ a.size = sz) := by
  set F := List.foldl (reportStep s)
    { lines := [], confirmed_count := 0, suspicious_count := 0,
      confirmed_bytes := 0, suspicious_bytes := 0 } reg with hF
  have hsusp : F.suspicious_count = reg.countP (fun a => a.is_suspicious) := by
    rw [hF, report_foldl_susp]
    simp
  have hrep : hash_table_report_leaks s reg
      = F.lines
        ++ (if 0 < F.confirmed_count ∨ 0 < F.suspicious_count then
              [ReportLine.summaryHeader,
               ReportLine.realLeaks F.confirmed_count F.confirmed_bytes]
              ++ (if 0 < F.suspicious_count then
                    [ReportLine.libcInfra F.suspicious_count
                      F.suspicious_bytes]
                  else [])
              ++ [ReportLine.footer]
            else []) := rfl
  have hnoInfraLoop : ∀ m b, ReportLine.libcInfra m b ∉ F.lines := by
    intro m b h
    rw [hF] at h
    simpa using report_foldl_infra_mem s reg _ m b h
  refine ⟨⟨?_, ?_⟩, ?_, ?_⟩
  · rintro ⟨m, b, hmem⟩
    rw [hrep] at hmem
    rcases List.mem_append.mp hmem with h | h
    · exact absurd h (hnoInfraLoop m b)
    · by_cases hco : 0 < F.confirmed_count ∨ 0 < F.suspicious_count
      · simp only [hco, if_true] at h
        by_cases hs : 0 < F.suspicious_count
        · omega
        · simp [hs] at h
      · simp [hco] at h
  · intro hc
    have hs : 0 < F.suspicious_count := by omega
    refine ⟨F.suspicious_count, F.suspicious_bytes, ?_⟩
    rw [hrep]
    simp [hs]
  · intro m b hmem
    rw [hrep] at hmem
    rcases List.mem_append.mp hmem with h | h
    · exact absurd h (hnoInfraLoop m b)
    · by_cases hco : 0 < F.confirmed_count ∨ 0 < F.suspicious_count
      · simp only [hco, if_true] at h
        by_cases hs : 0 < F.suspicious_count
        · simp [hs] at h
          omega
        · simp [hs] at h
      · simp [hco] at h
  · intro p sz hmem
    rw [hrep] at hmem
    rcases List.mem_append.mp hmem with h | h
    · rw [hF] at h
      rcases report_foldl_leak_mem s reg _ p sz h with h2 | h2
      · simp at h2
      · exact h2
    · by_cases hco : 0 < F.confirmed_count ∨ 0 < F.suspicious_count
      · simp only [hco, if_true] at h
        by_cases hs : 0 < F.suspicious_count <;> simp [hs] at h
      · simp [hco] at h

/-- Witness for C7: with one infrastructure-tagged record, the report does
contain a `Libc infrastructure` summary line. -/
theorem report_infra_counted_not_itemized_inst :
    ∃ m b, ReportLine.libcInfra m b ∈ hash_table_report_leaks true
      [{ ptr := 11, size := 4, timestamp := 0, stack_trace := none,
         stack_depth := 0, is_suspicious := true }] :=
  (report_infra_counted_not_itemized true
    [{ ptr := 11, size := 4, timestamp := 0, stack_trace := none,
       stack_depth := 0, is_suspicious := true }]).1.mpr (by decide)

end Profiler
